import Mathlib

/-!
Verification of the agent-support tool servers and configuration module:
the mail tool server (mcp_mail.py), the process tool server
(mcp_processes.py) and the configuration module (config.py).

Modelling conventions:
* A directory of JSON files is an association list from file identifier to
  file content; `none` content stands for a file that fails to parse or
  read (json.JSONDecodeError / IOError).
* Python string comparison is lexicographic on code points; it is embedded
  as `lexLt` on the character list of the string (Lean's builtin String
  order is not kernel-reducible, so we spell the comparison out).
* Python `list.sort(key=..., reverse=True)` is a stable descending sort;
  it is embedded as the stable descending insertion sort `sortDesc`, whose
  output agrees with every stable sort under the same key.
* OS interaction (uuid generation, clock, signal delivery, liveness
  probes, process spawning) is passed in explicitly as oracle arguments.
* A Python `KeyError` escaping a tool function is modelled by `Except`
  with error value `()`.
-/

deriving instance DecidableEq for Except

/-- Lexicographic code-point comparison of character lists: the Python
string `<` used by `list.sort` with a string key. -/
def lexLt : List Char → List Char → Bool
  | [], [] => false
  | [], _ :: _ => true
  | _ :: _, [] => false
  | a :: as, b :: bs =>
    if a.toNat < b.toNat then true
    else if b.toNat < a.toNat then false
    else lexLt as bs

/-- Python string `<` on the underlying character lists. -/
def strLt (a b : String) : Bool := lexLt a.data b.data

/-- Python `s.startswith(pre)` on character lists. -/
def begList : List Char → List Char → Bool
  | _, [] => true
  | [], _ :: _ => false
  | c :: cs, d :: ds => if c = d then begList cs ds else false

/-- Python `s.startswith(pre)`. -/
def strBegins (s pre : String) : Bool := begList s.data pre.data

/-- Python substring test `pat in hay` on character lists. -/
def hasSub (hay pat : List Char) : Bool :=
  match hay with
  | [] => begList [] pat
  | _ :: hs => begList hay pat || hasSub hs pat

/-- Python substring test `pat in hay`. -/
def hasSubstr (hay pat : String) : Bool := hasSub hay.data pat.data

/-- ASCII lower-casing of a character (the attribute and marker names the
config module compares are ASCII, so Python `str.lower` restricts to
this). -/
def lowerChar (c : Char) : Char :=
  if 65 ≤ c.toNat ∧ c.toNat ≤ 90 then Char.ofNat (c.toNat + 32) else c

/-- ASCII `str.lower`. -/
def lowerStr (s : String) : String := ⟨s.data.map lowerChar⟩

/-- Python `str.isupper` (ASCII): no cased character is lowercase, and at
least one cased character is present. -/
def pyIsUpper (s : String) : Bool :=
  s.data.all (fun c => !(97 ≤ c.toNat ∧ c.toNat ≤ 122 : Bool)) &&
  s.data.any (fun c => (65 ≤ c.toNat ∧ c.toNat ≤ 90 : Bool))

/-- Insert an element into a descending-sorted list, before the first
element strictly below it (the insertion step of a stable descending
sort). -/
def insertDesc {α : Type} (key : α → String) (x : α) : List α → List α
  | [] => [x]
  | y :: ys => if strLt (key x) (key y) then y :: insertDesc key x ys else x :: y :: ys

/-- Stable descending sort by a string key: the embedding of Python
`list.sort(key=..., reverse=True)`. -/
def sortDesc {α : Type} (key : α → String) : List α → List α
  | [] => []
  | x :: xs => insertDesc key x (sortDesc key xs)

/-- Read a file from a directory: the first (unique) entry with the given
name. -/
def storeGet {α : Type} : List (String × α) → String → Option α
  | [], _ => none
  | p :: ps, k => if p.1 = k then p.2 else storeGet ps k

/-- Write a file into a directory: replace the entry with the given name,
or create it. -/
def storeSet {α : Type} : List (String × α) → String → α → List (String × α)
  | [], k, v => [(k, v)]
  | p :: ps, k, v => if p.1 = k then (k, v) :: ps else p :: storeSet ps k v

/-- Delete a file from a directory (`Path.unlink`, a no-op when the file
is absent, matching the guarding `exists()` check at every call site). -/
def eraseKey {α : Type} (store : List (String × α)) (k : String) : List (String × α) :=
  store.filter (fun p => if p.1 = k then false else true)

theorem lexLt_asymm (a b : List Char) (h : lexLt a b = true) : lexLt b a = false := by
  induction a generalizing b with
  | nil =>
    cases b with
    | nil => simp [lexLt] at h
    | cons y ys => simp [lexLt]
  | cons x xs ih =>
    cases b with
    | nil => simp [lexLt] at h
    | cons y ys =>
      simp only [lexLt] at h ⊢
      by_cases h1 : x.toNat < y.toNat
      · have h2 : ¬ y.toNat < x.toNat := by omega
        simp [h1, h2]
      · by_cases h2 : y.toNat < x.toNat
        · simp [h1, h2] at h
        · simp only [h1, h2, if_false] at h
          simp [h1, h2, ih ys h]

theorem lexLt_lt_of_lt_of_nlt (a b c : List Char) (h1 : lexLt a c = true)
    (h2 : lexLt b c = false) : lexLt a b = true := by
  induction a generalizing b c with
  | nil =>
    cases c with
    | nil => simp [lexLt] at h1
    | cons z zs =>
      cases b with
      | nil => simp [lexLt] at h2
      | cons y ys => simp [lexLt]
  | cons x xs ih =>
    cases c with
    | nil => simp [lexLt] at h1
    | cons z zs =>
      cases b with
      | nil => simp [lexLt] at h2
      | cons y ys =>
        simp only [lexLt] at h1 h2 ⊢
        by_cases hxz : x.toNat < z.toNat
        · by_cases hyz : y.toNat < z.toNat
          · simp [hyz] at h2
          · by_cases hzy : z.toNat < y.toNat
            · have hxy : x.toNat < y.toNat := by omega
              simp [hxy]
            · have hxy : x.toNat < y.toNat := by omega
              simp [hxy]
        · by_cases hzx : z.toNat < x.toNat
          · simp [hxz, hzx] at h1
          · simp only [hxz, hzx, if_false, if_true] at h1
            by_cases hyz : y.toNat < z.toNat
            · simp [hyz] at h2
            · by_cases hzy : z.toNat < y.toNat
              · have hxy : x.toNat < y.toNat := by omega
                simp [hxy]
              · have hxy : ¬ x.toNat < y.toNat := by omega
                have hyx : ¬ y.toNat < x.toNat := by omega
                have h2b : lexLt ys zs = false := by simpa [hyz, hzy] using h2
                simp [hxy, hyx, ih ys zs h1 h2b]

/-- The pairwise relation "descending by key": no element is key-below its
successor, i.e. keys are non-increasing along the list. -/
def descBy {α : Type} (key : α → String) (a b : α) : Prop :=
  strLt (key a) (key b) = false

theorem mem_insertDesc {α : Type} (key : α → String) (x b : α) (l : List α) :
    b ∈ insertDesc key x l ↔ b = x ∨ b ∈ l := by
  induction l with
  | nil => simp [insertDesc]
  | cons y ys ih =>
    simp only [insertDesc]
    split
    · simp only [List.mem_cons, ih]
      tauto
    · simp only [List.mem_cons]

theorem sorted_insertDesc {α : Type} (key : α → String) (x : α) (l : List α)
    (h : List.Sorted (descBy key) l) :
    List.Sorted (descBy key) (insertDesc key x l) := by
  induction l with
  | nil => simp [insertDesc, List.sorted_singleton]
  | cons y ys ih =>
    simp only [insertDesc]
    rcases List.sorted_cons.mp h with ⟨hy, hys⟩
    split
    · rename_i hlt
      refine List.sorted_cons.mpr ⟨?_, ih hys⟩
      intro b hb
      rcases (mem_insertDesc key x b ys).mp hb with rfl | hb
      · exact lexLt_asymm _ _ hlt
      · exact hy b hb
    · rename_i hnlt
      refine List.sorted_cons.mpr ⟨?_, h⟩
      intro b hb
      rcases List.mem_cons.mp hb with rfl | hb
      · exact Bool.of_not_eq_true hnlt
      · show strLt (key x) (key b) = false
        rcases Bool.eq_false_or_eq_true (strLt (key x) (key b)) with ht | hf
        · exact absurd (lexLt_lt_of_lt_of_nlt (key x).data (key y).data (key b).data ht (hy b hb))
            (by simpa [strLt] using hnlt)
        · exact hf

theorem sorted_sortDesc {α : Type} (key : α → String) (l : List α) :
    List.Sorted (descBy key) (sortDesc key l) := by
  induction l with
  | nil => simp [sortDesc]
  | cons x xs ih => exact sorted_insertDesc key x _ ih

theorem perm_insertDesc {α : Type} (key : α → String) (x : α) (l : List α) :
    List.Perm (insertDesc key x l) (x :: l) := by
  induction l with
  | nil => simp [insertDesc]
  | cons y ys ih =>
    simp only [insertDesc]
    split
    · exact List.Perm.trans (List.Perm.cons y ih) (List.Perm.swap x y ys)
    · exact List.Perm.refl _

theorem perm_sortDesc {α : Type} (key : α → String) (l : List α) :
    List.Perm (sortDesc key l) l := by
  induction l with
  | nil => simp [sortDesc]
  | cons x xs ih =>
    exact List.Perm.trans (perm_insertDesc key x (sortDesc key xs)) (List.Perm.cons x ih)

theorem mem_sortDesc {α : Type} (key : α → String) (x : α) (l : List α) :
    x ∈ sortDesc key l ↔ x ∈ l :=
  (perm_sortDesc key l).mem_iff

theorem storeGet_storeSet_self {α : Type} (store : List (String × α)) (k : String) (v : α) :
    storeGet (storeSet store k v) k = some v := by
  induction store with
  | nil => simp [storeSet, storeGet]
  | cons p ps ih =>
    simp only [storeSet]
    split
    · simp [storeGet]
    · rename_i hne
      simp [storeGet, hne, ih]

theorem storeGet_storeSet_other {α : Type} (store : List (String × α)) (k k2 : String) (v : α)
    (h : k2 ≠ k) : storeGet (storeSet store k v) k2 = storeGet store k2 := by
  induction store with
  | nil =>
    simp only [storeSet, storeGet]
    rw [if_neg (fun hc => h hc.symm)]
  | cons p ps ih =>
    simp only [storeSet]
    split
    · rename_i heq
      simp [storeGet, heq, Ne.symm h]
    · simp only [storeGet, ih]

theorem storeSet_absent {α : Type} (store : List (String × α)) (k : String) (v : α)
    (h : storeGet store k = none) : storeSet store k v = store ++ [(k, v)] := by
  induction store with
  | nil => simp [storeSet]
  | cons p ps ih =>
    simp only [storeGet] at h
    by_cases hk : p.1 = k
    · simp [hk] at h
    · simp only [storeSet, hk, if_false, List.cons_append]
      rw [ih (by simpa [hk] using h)]

/-! ## Mail tool server (mcp_mail.py)

A message file is a JSON object. The fields the code reads with a
defaulting `dict.get` (`to`, `read`) are embedded as total fields, since a
missing field is observationally identical to the default; `timestamp` is
read both with `get("timestamp", "")` (sort key) and by direct `["…"]`
subscription (summaries), so its absence is observable and it stays an
`Option`. The remaining fields are only ever subscripted directly and are
embedded as the schema prescribes them. -/
structure Msg where
  id : String
  from_ : String
  to_ : List String
  subject : String
  body : String
  timestamp : Option String
  read : Bool
deriving DecidableEq

/-- The mail directory: file identifier (from the `msg_<id>.json` file
name) to parsed content, `none` for a file that fails to parse or read. -/
abbrev MailStore : Type := List (String × Option Msg)

/-- load_message: `None` when the file is missing, unreadable or not
JSON. -/
def load_message (store : MailStore) (message_id : String) : Option Msg :=
  match storeGet store message_id with
  | some (some m) => some m
  | _ => none

/-- save_message: write the message to the file named by its `id`. -/
def save_message (store : MailStore) (message : Msg) : MailStore :=
  storeSet store message.id (some message)

/-- The sort key `x.get("timestamp", "")` of list_messages. -/
def msgKey (m : Msg) : String := m.timestamp.getD ""

/-- list_messages: parse every message file, skipping corrupted ones, and
sort by timestamp, newest first. -/
def list_messages (store : MailStore) : List Msg :=
  sortDesc msgKey (store.filterMap (fun p => p.2))

/-- mcp__mail_send: persist a fresh message, `read` false. The generated
uuid and the utcnow timestamp are oracle arguments. -/
def mcp__mail_send (from_agent : String) (to_agents : List String)
    (subject body : String) (message_id timestamp : String) (store : MailStore) :
    String × MailStore :=
  let message : Msg :=
    { id := message_id, from_ := from_agent, to_ := to_agents, subject := subject,
      body := body, timestamp := some timestamp, read := false }
  (message_id, save_message store message)

/-- An inbox summary entry (id, from, subject, timestamp, read). -/
structure InboxItem where
  id : String
  from_ : String
  subject : String
  timestamp : String
  read : Bool
deriving DecidableEq

/-- The summary loop of mcp__mail_inbox: keep messages addressed to the
agent; subscripting a missing `timestamp` raises KeyError (`Except.error`). -/
def summarizeInbox (to_agent : String) : List Msg → Except Unit (List InboxItem)
  | [] => Except.ok []
  | m :: ms =>
    if to_agent ∈ m.to_ then
      match m.timestamp with
      | none => Except.error ()
      | some t =>
        match summarizeInbox to_agent ms with
        | Except.error e => Except.error e
        | Except.ok l =>
          Except.ok ({ id := m.id, from_ := m.from_, subject := m.subject,
                       timestamp := t, read := m.read } :: l)
    else summarizeInbox to_agent ms

/-- mcp__mail_inbox. -/
def mcp__mail_inbox (to_agent : String) (store : MailStore) :
    Except Unit (List InboxItem) :=
  summarizeInbox to_agent (list_messages store)

/-- A list-all summary entry (id, from, to, subject, timestamp, read). -/
structure MailSummary where
  id : String
  from_ : String
  to_ : List String
  subject : String
  timestamp : String
  read : Bool
deriving DecidableEq

/-- The summary loop of mcp__mail_list_all. -/
def summarizeAll : List Msg → Except Unit (List MailSummary)
  | [] => Except.ok []
  | m :: ms =>
    match m.timestamp with
    | none => Except.error ()
    | some t =>
      match summarizeAll ms with
      | Except.error e => Except.error e
      | Except.ok l =>
        Except.ok ({ id := m.id, from_ := m.from_, to_ := m.to_, subject := m.subject,
                     timestamp := t, read := m.read } :: l)

/-- mcp__mail_list_all. -/
def mcp__mail_list_all (store : MailStore) : Except Unit (List MailSummary) :=
  summarizeAll (list_messages store)

/-- The result of mcp__mail_read: either the not-found error payload or
the full message. -/
inductive ReadResult where
  | err (s : String)
  | msg (m : Msg)
deriving DecidableEq

/-- mcp__mail_read: return the full record, marking it read and persisting
the change; a missing or unparseable file yields the error payload. -/
def mcp__mail_read (message_id : String) (store : MailStore) :
    ReadResult × MailStore :=
  match load_message store message_id with
  | none => (ReadResult.err ("Message " ++ message_id ++ " not found"), store)
  | some m =>
    let m2 : Msg := { m with read := true }
    (ReadResult.msg m2, save_message store m2)

/-! ## Process tool server (mcp_processes.py)

A process metadata file is a JSON object. `pid` is read with a defaulting
`get` and tested for truthiness (`None` and `0` both count as "no pid"),
so it is an `Option Int`; `started_at` is read with `get("started_at","")`
as the sort key but subscripted directly when building list summaries, so
it stays an `Option`; `stopped_at` is optional in the schema. The other
fields are embedded as the schema prescribes them. -/
structure ProcRecord where
  id : String
  name : String
  owner : String
  command : String
  cwd : String
  pid : Option Int
  status : String
  started_at : Option String
  stopped_at : Option String
  log_file : String
deriving DecidableEq

/-- The process directory: `proc_<id>.json` files plus the `logs/`
subdirectory (log file identifier to content). -/
structure PStore where
  procs : List (String × Option ProcRecord)
  logs : List (String × String)
deriving DecidableEq

/-- Python truthiness of the stored `pid` value: `None` and `0` are
falsy. -/
def pidTruthy : Option Int → Bool
  | none => false
  | some n => if n = 0 then false else true

/-- Python truthiness of an optional string (None and "" falsy). -/
def optStrTruthy : Option String → Bool
  | none => false
  | some s => if s = "" then false else true

/-- The log file path `str(LOG_DIR / (id + ".log"))`. -/
def logPath (process_id : String) : String :=
  "/workspaces/.processes/logs/" ++ process_id ++ ".log"

/-- load_process. -/
def load_process (procs : List (String × Option ProcRecord)) (process_id : String) :
    Option ProcRecord :=
  match storeGet procs process_id with
  | some (some r) => some r
  | _ => none

/-- save_process: write the record to the file named by its `id`. -/
def save_process (procs : List (String × Option ProcRecord)) (r : ProcRecord) :
    List (String × Option ProcRecord) :=
  storeSet procs r.id (some r)

/-- update_process_status: a falsy pid means status `unknown` with no
probe; otherwise the signal-0 liveness probe (`live` oracle; a probe that
raises any OSError counts as not live) decides `running` vs `stopped`. -/
def update_process_status (live : Int → Bool) (r : ProcRecord) : ProcRecord :=
  match r.pid with
  | none => { r with status := "unknown" }
  | some p =>
    if p = 0 then { r with status := "unknown" }
    else if live p then { r with status := "running" }
    else { r with status := "stopped" }

/-- The sort key `x.get("started_at", "")` of list_processes. -/
def procKey (r : ProcRecord) : String := r.started_at.getD ""

/-- list_processes: parse every metadata file, skipping corrupted ones,
recompute each status from the live probe, and sort by start time, newest
first. -/
def list_processes (live : Int → Bool) (procs : List (String × Option ProcRecord)) :
    List ProcRecord :=
  sortDesc procKey (procs.filterMap (fun p => p.2.map (update_process_status live)))

/-- A process list summary (id, name, owner, status, started_at, pid). -/
structure ProcSummary where
  id : String
  name : String
  owner : String
  status : String
  started_at : String
  pid : Option Int
deriving DecidableEq

/-- The summary loop of mcp__process_list; subscripting a missing
`started_at` raises KeyError. -/
def summarizeProcs : List ProcRecord → Except Unit (List ProcSummary)
  | [] => Except.ok []
  | r :: rs =>
    match r.started_at with
    | none => Except.error ()
    | some t =>
      match summarizeProcs rs with
      | Except.error e => Except.error e
      | Except.ok l =>
        Except.ok ({ id := r.id, name := r.name, owner := r.owner, status := r.status,
                     started_at := t, pid := r.pid } :: l)

/-- mcp__process_list: a falsy owner argument (None or "") means no
filtering. -/
def mcp__process_list (owner : Option String) (live : Int → Bool) (store : PStore) :
    Except Unit (List ProcSummary) :=
  let processes := list_processes live store.procs
  let processes :=
    if optStrTruthy owner then processes.filter (fun p => p.owner = owner.getD "") else processes
  summarizeProcs processes

/-- mcp__process_start: `message_id` uuid, utcnow timestamp and the
outcome of `subprocess.Popen` (new pid, or the exception text) are oracle
arguments. The log file is opened (created/truncated) before the spawn; a
spawn failure returns the error-marker string and persists no metadata. -/
def mcp__process_start (command cwd name owner : String) (process_id timestamp : String)
    (spawn : Except String Int) (store : PStore) : String × PStore :=
  let logs2 := storeSet store.logs process_id ""
  match spawn with
  | Except.error e => ("Error starting process: " ++ e, { store with logs := logs2 })
  | Except.ok pid =>
    let r : ProcRecord :=
      { id := process_id, name := name, owner := owner, command := command, cwd := cwd,
        pid := some pid, status := "running", started_at := some timestamp,
        log_file := logPath process_id, stopped_at := none }
    (process_id, { procs := save_process store.procs r, logs := logs2 })

/-- A signal delivered to a process group during stop. -/
inductive Sig where
  | term (pg : Int)
  | kill (pg : Int)
deriving DecidableEq

/-- The OS responses consumed by one run of mcp__process_stop, in call
order: `os.getpgid(pid)` (raising ProcessLookupError when `none`), whether
`os.killpg(pg, SIGTERM)` raises, the liveness re-probe after the 2-second
grace window, and the second `getpgid` / `killpg(pg, SIGKILL)` pair. -/
structure StopOS where
  pg1 : Option Int
  term_raises : Bool
  aliveAfter : Bool
  pg2 : Option Int
  kill_raises : Bool
deriving DecidableEq

/-- mcp__process_stop: false for a missing record or falsy pid; otherwise
SIGTERM the group, wait 2 seconds, SIGKILL the group if still alive, then
persist status `stopped` and `stopped_at`; any OSError inside that block
jumps to the handler, which persists status `stopped` only (no
`stopped_at`) and still returns true. Returns the result, the updated
store and the list of signals actually delivered. -/
def mcp__process_stop (store : PStore) (process_id : String) (now : String)
    (os : StopOS) : Bool × PStore × List Sig :=
  match load_process store.procs process_id with
  | none => (false, store, [])
  | some r =>
    if pidTruthy r.pid then
      let exceptSave := { store with procs := save_process store.procs { r with status := "stopped" } }
      let stoppedRec : ProcRecord := { r with status := "stopped", stopped_at := some now }
      let okSave := { store with procs := save_process store.procs stoppedRec }
      match os.pg1 with
      | none => (true, exceptSave, [])
      | some pg =>
        if os.term_raises then (true, exceptSave, [])
        else if os.aliveAfter then
          match os.pg2 with
          | none => (true, exceptSave, [Sig.term pg])
          | some pgk =>
            if os.kill_raises then (true, exceptSave, [Sig.term pg])
            else (true, okSave, [Sig.term pg, Sig.kill pgk])
        else (true, okSave, [Sig.term pg])
    else (false, store, [])

/-- mcp__process_restart: load the record, stop (false short-circuits),
then start afresh with the same command/cwd/name/owner and a brand-new
identifier; success is "the start result does not begin with the error
marker". -/
def mcp__process_restart (store : PStore) (process_id : String)
    (now new_id timestamp : String) (sos : StopOS) (spawn : Except String Int) :
    Bool × PStore :=
  match load_process store.procs process_id with
  | none => (false, store)
  | some r =>
    let stopRes := mcp__process_stop store process_id now sos
    if stopRes.1 = false then (false, stopRes.2.1)
    else
      let startRes :=
        mcp__process_start r.command r.cwd r.name r.owner new_id timestamp spawn stopRes.2.1
      (!(strBegins startRes.1 "Error"), startRes.2)

/-- mcp__process_cleanup: list (with live-recomputed statuses), unlink the
metadata file of every process whose effective status is `stopped`, keep
every log file, and report removed/remaining counts. -/
def mcp__process_cleanup (store : PStore) (live : Int → Bool) : PStore × Nat × Nat :=
  let processes := list_processes live store.procs
  let stopped := processes.filter (fun r => if r.status = "stopped" then true else false)
  let procs2 := stopped.foldl (fun acc r => eraseKey acc r.id) store.procs
  ({ store with procs := procs2 }, stopped.length, processes.length - stopped.length)

/-! ## Configuration module (config.py)

`Config.validate` reads only a fixed subset of the settings; that subset
is embedded as a record. Python's unbounded `int` is embedded as `Int`;
`Optional[str]` as `Option String`. -/
structure Config where
  API_PORT : Int
  API_WORKERS : Int
  ENVIRONMENT : String
  LOG_LEVEL : String
  MAX_FILE_SIZE_MB : Int
  CACHE_TYPE : String
  CACHE_REDIS_URL : Option String
  TELEMETRY_ENABLED : Bool
  HONEYCOMB_API_KEY : String
deriving DecidableEq

/-- The repr of a list of (quote-free) strings, as interpolated by the
f-strings in validate (`['development', 'staging', ...]`). -/
def pyStrListRepr (l : List String) : String :=
  "[" ++ String.intercalate ", " (l.map (fun s => "\x27" ++ s ++ "\x27")) ++ "]"

def valid_environments : List String := ["development", "staging", "production", "test"]

def valid_log_levels : List String := ["DEBUG", "INFO", "WARNING", "ERROR", "CRITICAL"]

def valid_cache_types : List String := ["memory", "redis", "memcached"]

/-- The `errors` list accumulated by Config.validate, in program order. -/
def validateErrors (c : Config) : List String :=
  (if c.API_PORT < 1 ∨ 65535 < c.API_PORT then
    ["Invalid API_PORT: " ++ toString c.API_PORT] else []) ++
  (if c.API_WORKERS < 1 then
    ["API_WORKERS must be at least 1, got " ++ toString c.API_WORKERS] else []) ++
  (if c.ENVIRONMENT ∉ valid_environments then
    ["ENVIRONMENT must be one of " ++ pyStrListRepr valid_environments ++ ", got " ++ c.ENVIRONMENT]
   else []) ++
  (if c.LOG_LEVEL ∉ valid_log_levels then
    ["LOG_LEVEL must be one of " ++ pyStrListRepr valid_log_levels ++ ", got " ++ c.LOG_LEVEL]
   else []) ++
  (if c.MAX_FILE_SIZE_MB < 1 ∨ 1000 < c.MAX_FILE_SIZE_MB then
    ["MAX_FILE_SIZE_MB must be between 1 and 1000, got " ++ toString c.MAX_FILE_SIZE_MB] else []) ++
  (if c.CACHE_TYPE ∉ valid_cache_types then
    ["CACHE_TYPE must be one of " ++ pyStrListRepr valid_cache_types ++ ", got " ++ c.CACHE_TYPE]
   else []) ++
  (if c.CACHE_TYPE = "redis" ∧ optStrTruthy c.CACHE_REDIS_URL = false then
    ["CACHE_REDIS_URL must be set when using Redis cache"] else [])

/-- Whether Config.validate issues the telemetry log warning (never an
error). -/
def telemetryWarning (c : Config) : Bool :=
  c.TELEMETRY_ENABLED && (if c.HONEYCOMB_API_KEY = "" then true else false)

/-- Config.validate: `none` for success, `some message` for the single
aggregated ValueError raised when any constraint is violated. -/
def validate (c : Config) : Option String :=
  if validateErrors c = [] then none
  else some ("Configuration validation failed:\n" ++
    String.intercalate "\n" ((validateErrors c).map (fun e => "  - " ++ e)))

/-- A Python attribute value, as far as Config.to_dict discriminates
them: `isinstance(value, str)`, `isinstance(value, list)`, or anything
else (ints, bools, None, bound methods), which passes through. -/
inductive PyVal where
  | str (s : String)
  | int (n : Int)
  | bool (b : Bool)
  | list (l : List String)
  | nonev
  | method
deriving DecidableEq

/-- The `Optional[str]` settings as attribute values. -/
def pyOptStr : Option String → PyVal
  | none => PyVal.nonev
  | some s => PyVal.str s

/-- The sensitivity test of Config.to_dict: the lowercased attribute name
contains "key", "secret", "password" or "token". -/
def sensitiveName (key : String) : Bool :=
  hasSubstr (lowerStr key) "key" || hasSubstr (lowerStr key) "secret" ||
  hasSubstr (lowerStr key) "password" || hasSubstr (lowerStr key) "token"

/-- The redaction applied by Config.to_dict to a single attribute value:
for a sensitive name, a non-empty string becomes the fixed marker and a
non-empty list becomes positionally-indexed markers; everything else
passes through. -/
def redactValue (key : String) (value : PyVal) : PyVal :=
  if sensitiveName key then
    match value with
    | PyVal.str s => if s = "" then PyVal.str s else PyVal.str "***REDACTED***"
    | PyVal.list l =>
      if l = [] then PyVal.list l
      else PyVal.list ((List.range l.length).map (fun i => "***REDACTED" ++ toString (Int.ofNat i) ++ "***"))
    | v => v
  else value

/-- The attribute filter of Config.to_dict: `key.isupper() and not
key.startswith("_")`. -/
def keepAttr (k : String) : Bool := pyIsUpper k && !(strBegins k "_")

/-- The loop of Config.to_dict over `dir(cls)`. -/
def to_dict : List (String × PyVal) → List (String × PyVal)
  | [] => []
  | (k, v) :: rest =>
    if keepAttr k then (k, redactValue k v) :: to_dict rest else to_dict rest

/-- The full Config class attribute values (every setting of the class,
parameterized by the environment-dependent values). -/
structure ConfigAttrs where
  PROJECT_NAME : String
  ENVIRONMENT : String
  API_HOST : String
  API_PORT : Int
  API_WORKERS : Int
  SECRET_KEY : String
  API_TOKENS : List String
  CORS_ORIGINS : List String
  TELEMETRY_ENABLED : Bool
  OTEL_ENDPOINT : String
  OTEL_SERVICE_NAME : String
  OTEL_SERVICE_NAMESPACE : String
  HONEYCOMB_API_KEY : String
  HONEYCOMB_DATASET : String
  HONEYCOMB_API_ENDPOINT : String
  MAX_CONCURRENT_AGENTS : Int
  AGENT_TIMEOUT : Int
  AGENT_MEMORY_LIMIT_MB : Int
  MAX_FILE_SIZE_MB : Int
  ALLOWED_FILE_EXTENSIONS : List String
  LOG_LEVEL : String
  LOG_FORMAT : String
  LOG_FILE : Option String
  DATABASE_URL : Option String
  DATABASE_POOL_SIZE : Int
  DATABASE_MAX_OVERFLOW : Int
  CACHE_TYPE : String
  CACHE_REDIS_URL : Option String
  CACHE_DEFAULT_TIMEOUT : Int
  FEATURE_AUTO_SAVE : Bool
  FEATURE_COLLABORATIVE_EDITING : Bool
  FEATURE_ADVANCED_ANALYTICS : Bool
deriving DecidableEq

/-- `dir(Config)`: every class attribute, alphabetically — the uppercase
settings first, then the double-underscore attributes, then the lowercase
classmethods (ASCII order puts `_` (95) after uppercase and before
lowercase letters). -/
def configDir (c : ConfigAttrs) : List (String × PyVal) :=
  [("AGENT_MEMORY_LIMIT_MB", PyVal.int c.AGENT_MEMORY_LIMIT_MB),
   ("AGENT_TIMEOUT", PyVal.int c.AGENT_TIMEOUT),
   ("ALLOWED_FILE_EXTENSIONS", PyVal.list c.ALLOWED_FILE_EXTENSIONS),
   ("API_HOST", PyVal.str c.API_HOST),
   ("API_PORT", PyVal.int c.API_PORT),
   ("API_TOKENS", PyVal.list c.API_TOKENS),
   ("API_WORKERS", PyVal.int c.API_WORKERS),
   ("CACHE_DEFAULT_TIMEOUT", PyVal.int c.CACHE_DEFAULT_TIMEOUT),
   ("CACHE_REDIS_URL", pyOptStr c.CACHE_REDIS_URL),
   ("CACHE_TYPE", PyVal.str c.CACHE_TYPE),
   ("CORS_ORIGINS", PyVal.list c.CORS_ORIGINS),
   ("DATABASE_MAX_OVERFLOW", PyVal.int c.DATABASE_MAX_OVERFLOW),
   ("DATABASE_POOL_SIZE", PyVal.int c.DATABASE_POOL_SIZE),
   ("DATABASE_URL", pyOptStr c.DATABASE_URL),
   ("ENVIRONMENT", PyVal.str c.ENVIRONMENT),
   ("FEATURE_ADVANCED_ANALYTICS", PyVal.bool c.FEATURE_ADVANCED_ANALYTICS),
   ("FEATURE_AUTO_SAVE", PyVal.bool c.FEATURE_AUTO_SAVE),
   ("FEATURE_COLLABORATIVE_EDITING", PyVal.bool c.FEATURE_COLLABORATIVE_EDITING),
   ("HONEYCOMB_API_ENDPOINT", PyVal.str c.HONEYCOMB_API_ENDPOINT),
   ("HONEYCOMB_API_KEY", PyVal.str c.HONEYCOMB_API_KEY),
   ("HONEYCOMB_DATASET", PyVal.str c.HONEYCOMB_DATASET),
   ("LOG_FILE", pyOptStr c.LOG_FILE),
   ("LOG_FORMAT", PyVal.str c.LOG_FORMAT),
   ("LOG_LEVEL", PyVal.str c.LOG_LEVEL),
   ("MAX_CONCURRENT_AGENTS", PyVal.int c.MAX_CONCURRENT_AGENTS),
   ("MAX_FILE_SIZE_MB", PyVal.int c.MAX_FILE_SIZE_MB),
   ("OTEL_ENDPOINT", PyVal.str c.OTEL_ENDPOINT),
   ("OTEL_SERVICE_NAME", PyVal.str c.OTEL_SERVICE_NAME),
   ("OTEL_SERVICE_NAMESPACE", PyVal.str c.OTEL_SERVICE_NAMESPACE),
   ("PROJECT_NAME", PyVal.str c.PROJECT_NAME),
   ("SECRET_KEY", PyVal.str c.SECRET_KEY),
   ("TELEMETRY_ENABLED", PyVal.bool c.TELEMETRY_ENABLED),
   ("__dict__", PyVal.method),
   ("__doc__", PyVal.str "Application configuration with environment variable support"),
   ("__module__", PyVal.str "config"),
   ("__weakref__", PyVal.method),
   ("get_log_config", PyVal.method),
   ("get_max_file_size_bytes", PyVal.method),
   ("get_project_root", PyVal.method),
   ("is_development", PyVal.method),
   ("is_production", PyVal.method),
   ("to_dict", PyVal.method),
   ("validate", PyVal.method)]

/-- Config.to_dict. -/
def Config_to_dict (c : ConfigAttrs) : List (String × PyVal) :=
  to_dict (configDir c)

/-! ## Remaining store lemmas -/

theorem storeSet_storeSet_self {α : Type} (store : List (String × α)) (k : String) (v w : α) :
    storeSet (storeSet store k v) k w = storeSet store k w := by
  induction store with
  | nil => simp [storeSet]
  | cons p ps ih =>
    simp only [storeSet]
    split
    · simp [storeSet]
    · rename_i hne
      simp [storeSet, hne, ih]

/-! ## Claim C9 -/

/-- C9: for a message identifier whose file exists but is not parseable
JSON (or is unreadable), mail_read returns the same not-found error
payload as for a missing identifier, and modifies nothing: corrupted
messages are indistinguishable from absent ones at the read interface. -/
theorem mail_read_corrupt_is_not_found (store : MailStore) (mid : String)
    (h : storeGet store mid = some none ∨ storeGet store mid = none) :
    mcp__mail_read mid store = (ReadResult.err ("Message " ++ mid ++ " not found"), store) := by
  rcases h with h | h <;> simp [mcp__mail_read, load_message, h]

def c9msg : Msg :=
  { id := "ok", from_ := "alice", to_ := ["bob"], subject := "s", body := "b",
    timestamp := some "2024-07-03T10:30:00Z", read := false }

def c9store : MailStore := [("bad", none), ("ok", some c9msg)]

/-- C9 witness: a store with one corrupted file, read at the corrupted
identifier and at a missing identifier. -/
theorem mail_read_corrupt_is_not_found_witness :
    mcp__mail_read "bad" c9store = (ReadResult.err "Message bad not found", c9store)
    ∧ mcp__mail_read "gone" c9store = (ReadResult.err "Message gone not found", c9store) :=
  ⟨mail_read_corrupt_is_not_found c9store "bad" (Or.inl (by decide)),
   mail_read_corrupt_is_not_found c9store "gone" (Or.inr (by decide))⟩

/-! ## Claim C3 -/

/-- C3: for a message whose file exists and parses, mail_read returns the
full record with `read` true and persists exactly that record (all other
fields unchanged); a second mail_read of the same identifier returns
`read` = true again and leaves the store as it was after the first
read. -/
theorem mail_read_marks_read (store : MailStore) (mid : String) (m : Msg)
    (hm : storeGet store mid = some (some m)) (hid : m.id = mid) :
    mcp__mail_read mid store =
      (ReadResult.msg { m with read := true }, storeSet store mid (some { m with read := true }))
    ∧ ({ m with read := true }).id = m.id
    ∧ ({ m with read := true }).from_ = m.from_
    ∧ ({ m with read := true }).to_ = m.to_
    ∧ ({ m with read := true }).subject = m.subject
    ∧ ({ m with read := true }).body = m.body
    ∧ ({ m with read := true }).timestamp = m.timestamp
    ∧ mcp__mail_read mid (storeSet store mid (some { m with read := true })) =
        (ReadResult.msg { m with read := true }, storeSet store mid (some { m with read := true })) := by
  have hload : load_message store mid = some m := by simp [load_message, hm]
  have h1 : mcp__mail_read mid store =
      (ReadResult.msg { m with read := true }, storeSet store mid (some { m with read := true })) := by
    simp only [mcp__mail_read, hload]
    simp [save_message, hid]
  refine ⟨h1, rfl, rfl, rfl, rfl, rfl, rfl, ?_⟩
  have hload2 : load_message (storeSet store mid (some { m with read := true })) mid =
      some { m with read := true } := by
    simp [load_message, storeGet_storeSet_self]
  simp only [mcp__mail_read, hload2]
  simp [save_message, hid, storeSet_storeSet_self]

def c3msg : Msg :=
  { id := "m1", from_ := "alice", to_ := ["bob"], subject := "hello", body := "text",
    timestamp := some "2024-07-03T10:30:00Z", read := false }

def c3store : MailStore := [("m1", some c3msg)]

/-- C3 witness: reading a concrete unread message marks it read, twice
over. -/
theorem mail_read_marks_read_witness :
    mcp__mail_read "m1" c3store =
      (ReadResult.msg { c3msg with read := true }, storeSet c3store "m1" (some { c3msg with read := true })) :=
  (mail_read_marks_read c3store "m1" c3msg (by decide) (by decide)).1

/-! ## Claim C10 -/

/-- C10: a process record whose stored pid is 0 or absent has no pid:
update_process_status (used by every listing) reports status `unknown`
independently of the liveness oracle (no probe is consulted), and
process_stop returns false, persists nothing, and delivers no signal. -/
theorem falsy_pid_unknown_and_stop_false (r : ProcRecord) (live live2 : Int → Bool)
    (store : PStore) (mid now : String) (os : StopOS)
    (hp : r.pid = none ∨ r.pid = some 0) :
    update_process_status live r = { r with status := "unknown" }
    ∧ update_process_status live r = update_process_status live2 r
    ∧ (load_process store.procs mid = some r →
        mcp__process_stop store mid now os = (false, store, [])) := by
  have hu : ∀ f : Int → Bool, update_process_status f r = { r with status := "unknown" } := by
    intro f
    rcases hp with h | h <;> simp [update_process_status, h]
  refine ⟨hu live, (hu live).trans (hu live2).symm, ?_⟩
  intro hl
  have hpt : pidTruthy r.pid = false := by
    rcases hp with h | h <;> simp [pidTruthy, h]
  simp [mcp__process_stop, hl, hpt]

def c10rec : ProcRecord :=
  { id := "p1", name := "job", owner := "agent", command := "sleep 5", cwd := "/",
    pid := some 0, status := "running", started_at := some "2024-07-03T10:30:00Z",
    stopped_at := none, log_file := logPath "p1" }

def c10store : PStore := { procs := [("p1", some c10rec)], logs := [] }

def c10os : StopOS :=
  { pg1 := some 7, term_raises := false, aliveAfter := false, pg2 := none, kill_raises := false }

/-- C10 witness: a record with stored pid 0, probed by two different
liveness oracles and stopped. -/
theorem falsy_pid_unknown_and_stop_false_witness :
    update_process_status (fun _ => true) c10rec = { c10rec with status := "unknown" }
    ∧ mcp__process_stop c10store "p1" "now" c10os = (false, c10store, []) := by
  have h := falsy_pid_unknown_and_stop_false c10rec (fun _ => true) (fun _ => false)
    c10store "p1" "now" c10os (Or.inr (by decide))
  exact ⟨h.1, h.2.2 (by decide)⟩

/-! ## Claim C1 (corrected) -/

/-- Whether the stop sequence of mcp__process_stop runs to the end of its
`try` block without an OSError (so that `stopped_at` gets assigned). -/
def stopSignalOk (os : StopOS) : Bool :=
  os.pg1.isSome && !os.term_raises && (!os.aliveAfter || (os.pg2.isSome && !os.kill_raises))

/-- C1 (amended): for a stored record with a truthy pid, process_stop
returns true and persists the record with status `stopped`; `stopped_at`
is set to the stop time exactly when the whole signalling sequence raised
no OSError, and is left unchanged when the OS process (group) no longer
exists; a missing record or missing pid yields false with nothing
persisted. -/
theorem process_stop_spec (store : PStore) (mid now : String) (os : StopOS) :
    (load_process store.procs mid = none →
      mcp__process_stop store mid now os = (false, store, []))
    ∧ (∀ r, load_process store.procs mid = some r →
        (pidTruthy r.pid = false → mcp__process_stop store mid now os = (false, store, []))
        ∧ (pidTruthy r.pid = true →
            (mcp__process_stop store mid now os).1 = true
            ∧ (mcp__process_stop store mid now os).2.1.procs =
                save_process store.procs
                  (if stopSignalOk os then { r with status := "stopped", stopped_at := some now }
                   else { r with status := "stopped" })
            ∧ (mcp__process_stop store mid now os).2.1.logs = store.logs)) := by
  constructor
  · intro h
    simp [mcp__process_stop, h]
  · intro r hl
    constructor
    · intro hp
      simp [mcp__process_stop, hl, hp]
    · intro hp
      rcases os with ⟨pg1, tr, aa, pg2, kr⟩
      cases pg1 <;> cases tr <;> cases aa <;> cases pg2 <;> cases kr <;>
        simp [mcp__process_stop, hl, hp, stopSignalOk]

def c1rec : ProcRecord :=
  { id := "a", name := "svc", owner := "agent", command := "python app.py", cwd := "/w",
    pid := some 55, status := "running", started_at := some "2024-07-03T10:30:00Z",
    stopped_at := none, log_file := logPath "a" }

def c1store : PStore := { procs := [("a", some c1rec)], logs := [("a", "")] }

/-- The stop oracle of a process that exited before stop was called:
`os.getpgid` raises ProcessLookupError immediately. -/
def c1os : StopOS :=
  { pg1 := none, term_raises := false, aliveAfter := false, pg2 := none, kill_raises := false }

/-- C1 counterexample: stopping a record whose OS process is already gone
returns true and persists status `stopped`, but the persisted record
carries no `stopped_at` timestamp at all — refuting the claim that the
record afterwards always has `stopped_at` set to the stop time. -/
theorem process_stop_missing_stopped_at :
    (mcp__process_stop c1store "a" "2024-07-05T00:00:00Z" c1os).1 = true
    ∧ storeGet (mcp__process_stop c1store "a" "2024-07-05T00:00:00Z" c1os).2.1.procs "a" =
        some (some { c1rec with status := "stopped" })
    ∧ ({ c1rec with status := "stopped" }).stopped_at = none := by decide

def c1osLive : StopOS :=
  { pg1 := some 55, term_raises := false, aliveAfter := false, pg2 := none, kill_raises := false }

/-- C1 witness: the amended theorem applied to a live process (its group
receives SIGTERM and dies within the grace window: `stopped_at` is set)
and to the already-gone process of the counterexample oracle. -/
theorem process_stop_spec_witness :
    (mcp__process_stop c1store "a" "2024-07-05T00:00:00Z" c1osLive).1 = true
    ∧ (mcp__process_stop c1store "a" "2024-07-05T00:00:00Z" c1osLive).2.1.procs =
        save_process c1store.procs { c1rec with status := "stopped", stopped_at := some "2024-07-05T00:00:00Z" } := by
  have h := ((process_stop_spec c1store "a" "2024-07-05T00:00:00Z" c1osLive).2
    c1rec (by decide)).2 (by decide)
  refine ⟨h.1, ?_⟩
  rw [h.2.1]
  decide

/-! ## Claim C6 -/

/-- The number of violated validation rules. -/
def violatedCount (c : Config) : Nat :=
  (if c.API_PORT < 1 ∨ 65535 < c.API_PORT then 1 else 0) +
  (if c.API_WORKERS < 1 then 1 else 0) +
  (if c.ENVIRONMENT ∉ valid_environments then 1 else 0) +
  (if c.LOG_LEVEL ∉ valid_log_levels then 1 else 0) +
  (if c.MAX_FILE_SIZE_MB < 1 ∨ 1000 < c.MAX_FILE_SIZE_MB then 1 else 0) +
  (if c.CACHE_TYPE ∉ valid_cache_types then 1 else 0) +
  (if c.CACHE_TYPE = "redis" ∧ optStrTruthy c.CACHE_REDIS_URL = false then 1 else 0)

theorem length_ite_singleton (P : Prop) [Decidable P] (s : String) :
    (if P then [s] else ([] : List String)).length = if P then 1 else 0 := by
  split <;> rfl

theorem ite_singleton_eq_nil (P : Prop) [Decidable P] (s : String) :
    ((if P then [s] else ([] : List String)) = [] ↔ ¬ P) := by
  split <;> simp [*]

/-- C6: Config.validate raises its single aggregated error iff at least
one of the seven constraints is violated; the raised message is the fixed
header followed by one dash-prefixed line per violated rule (the errors
list has exactly one entry per violated constraint); telemetry enabled
without an API key only produces the log warning, never an error. -/
theorem validate_spec (c : Config) :
    ((validate c).isSome ↔
      ((c.API_PORT < 1 ∨ 65535 < c.API_PORT) ∨ c.API_WORKERS < 1 ∨
        c.ENVIRONMENT ∉ valid_environments ∨ c.LOG_LEVEL ∉ valid_log_levels ∨
        (c.MAX_FILE_SIZE_MB < 1 ∨ 1000 < c.MAX_FILE_SIZE_MB) ∨
        c.CACHE_TYPE ∉ valid_cache_types ∨
        (c.CACHE_TYPE = "redis" ∧ optStrTruthy c.CACHE_REDIS_URL = false)))
    ∧ (validateErrors c).length = violatedCount c
    ∧ (∀ msg, validate c = some msg →
        msg = "Configuration validation failed:\n" ++
          String.intercalate "\n" ((validateErrors c).map (fun e => "  - " ++ e)))
    ∧ (telemetryWarning c = true → validateErrors c = [] → validate c = none) := by
  have he2 : validateErrors c = [] ↔
      ¬ ((c.API_PORT < 1 ∨ 65535 < c.API_PORT) ∨ c.API_WORKERS < 1 ∨
        c.ENVIRONMENT ∉ valid_environments ∨ c.LOG_LEVEL ∉ valid_log_levels ∨
        (c.MAX_FILE_SIZE_MB < 1 ∨ 1000 < c.MAX_FILE_SIZE_MB) ∨
        c.CACHE_TYPE ∉ valid_cache_types ∨
        (c.CACHE_TYPE = "redis" ∧ optStrTruthy c.CACHE_REDIS_URL = false)) := by
    simp only [validateErrors, List.append_eq_nil, ite_singleton_eq_nil, not_or]
    tauto
  refine ⟨?_, ?_, ?_, ?_⟩
  · by_cases he : validateErrors c = []
    · simp only [validate, he, if_true, Option.isSome_none, Bool.false_eq_true, false_iff]
      exact he2.mp he
    · simp only [validate, he, if_false, Option.isSome_some, true_iff]
      by_contra hnd
      exact he (he2.mpr hnd)
  · simp only [validateErrors, violatedCount, List.length_append]
    split_ifs <;> simp
  · intro msg h
    by_cases he : validateErrors c = []
    · simp [validate, he] at h
    · simp only [validate, he, if_false, Option.some_inj] at h
      exact h.symm
  · intro _ he
    simp [validate, he]

def c6bad : Config :=
  { API_PORT := 70000, API_WORKERS := 0, ENVIRONMENT := "prod", LOG_LEVEL := "INFO",
    MAX_FILE_SIZE_MB := 100, CACHE_TYPE := "memory", CACHE_REDIS_URL := none,
    TELEMETRY_ENABLED := true, HONEYCOMB_API_KEY := "" }

/-- C6 witness: a configuration violating exactly the port, workers and
environment rules raises one aggregated three-line error even though the
telemetry warning also fires. -/
theorem validate_spec_witness :
    (validate c6bad).isSome = true
    ∧ (validateErrors c6bad).length = 3
    ∧ telemetryWarning c6bad = true := by
  have h := validate_spec c6bad
  refine ⟨h.1.mpr (Or.inl (by decide)), h.2.1.trans (by decide), by decide⟩

/-! ## Claim C7 -/

/-- C7: Config.to_dict keeps exactly the uppercase, non-underscore
attribute names, mapping each to its (possibly redacted) value; for a
sensitive name (containing key/secret/password/token case-insensitively)
a non-empty string becomes the fixed marker and a non-empty list of
length n becomes the n positionally-indexed markers; empty sensitive
values and all non-sensitive values pass through unchanged, as do the
concrete PROJECT_NAME and API_PORT settings. -/
theorem to_dict_spec :
    (∀ attrs : List (String × PyVal),
      to_dict attrs =
        (attrs.filter (fun p => keepAttr p.1)).map (fun p => (p.1, redactValue p.1 p.2)))
    ∧ (∀ k s, sensitiveName k = true → s ≠ "" →
        redactValue k (PyVal.str s) = PyVal.str "***REDACTED***")
    ∧ (∀ k (l : List String), sensitiveName k = true → l ≠ [] →
        redactValue k (PyVal.list l) =
          PyVal.list ((List.range l.length).map
            (fun i => "***REDACTED" ++ toString (Int.ofNat i) ++ "***"))
        ∧ ((List.range l.length).map
            (fun i => "***REDACTED" ++ toString (Int.ofNat i) ++ "***")).length = l.length)
    ∧ (∀ k, redactValue k (PyVal.str "") = PyVal.str ""
        ∧ redactValue k (PyVal.list []) = PyVal.list [])
    ∧ (∀ k v, sensitiveName k = false → redactValue k v = v)
    ∧ (∀ k n, redactValue k (PyVal.int n) = PyVal.int n)
    ∧ (∀ k b, redactValue k (PyVal.bool b) = PyVal.bool b)
    ∧ (∀ c : ConfigAttrs,
        storeGet (Config_to_dict c) "PROJECT_NAME" = some (PyVal.str c.PROJECT_NAME)
        ∧ storeGet (Config_to_dict c) "API_PORT" = some (PyVal.int c.API_PORT)
        ∧ storeGet (Config_to_dict c) "SECRET_KEY" =
            some (redactValue "SECRET_KEY" (PyVal.str c.SECRET_KEY))
        ∧ storeGet (Config_to_dict c) "API_TOKENS" =
            some (redactValue "API_TOKENS" (PyVal.list c.API_TOKENS))
        ∧ storeGet (Config_to_dict c) "HONEYCOMB_API_KEY" =
            some (redactValue "HONEYCOMB_API_KEY" (PyVal.str c.HONEYCOMB_API_KEY))
        ∧ storeGet (Config_to_dict c) "validate" = none
        ∧ storeGet (Config_to_dict c) "__doc__" = none)
    ∧ sensitiveName "SECRET_KEY" = true ∧ sensitiveName "API_TOKENS" = true
    ∧ sensitiveName "HONEYCOMB_API_KEY" = true ∧ sensitiveName "PROJECT_NAME" = false
    ∧ sensitiveName "API_PORT" = false := by
  refine ⟨?_, ?_, ?_, ?_, ?_, ?_, ?_, ?_, by decide, by decide, by decide, by decide, by decide⟩
  · intro attrs
    induction attrs with
    | nil => rfl
    | cons p ps ih =>
      rcases p with ⟨k, v⟩
      by_cases hk : keepAttr k = true
      · simp [to_dict, hk, ih]
      · simp only [Bool.not_eq_true] at hk
        simp [to_dict, hk, ih]
  · intro k s hs hne
    simp [redactValue, hs, hne]
  · intro k l hs hne
    refine ⟨by simp [redactValue, hs, hne], by simp⟩
  · intro k
    constructor <;> simp [redactValue]
  · intro k v hs
    simp [redactValue, hs]
  · intro k n
    by_cases hs : sensitiveName k = true <;> simp [redactValue, hs]
  · intro k b
    by_cases hs : sensitiveName k = true <;> simp [redactValue, hs]
  · intro c
    refine ⟨rfl, rfl, rfl, rfl, rfl, rfl, rfl⟩

def c7attrs : ConfigAttrs :=
  { PROJECT_NAME := "coding-agent", ENVIRONMENT := "development", API_HOST := "0.0.0.0",
    API_PORT := 8000, API_WORKERS := 4, SECRET_KEY := "hunter2",
    API_TOKENS := ["tokA", "tokB"], CORS_ORIGINS := ["*"], TELEMETRY_ENABLED := true,
    OTEL_ENDPOINT := "http://localhost:4317", OTEL_SERVICE_NAME := "coding-agent",
    OTEL_SERVICE_NAMESPACE := "coding-agent", HONEYCOMB_API_KEY := "",
    HONEYCOMB_DATASET := "coding-agent", HONEYCOMB_API_ENDPOINT := "api.honeycomb.io",
    MAX_CONCURRENT_AGENTS := 5, AGENT_TIMEOUT := 3600, AGENT_MEMORY_LIMIT_MB := 2048,
    MAX_FILE_SIZE_MB := 100, ALLOWED_FILE_EXTENSIONS := [".py", ".md"],
    LOG_LEVEL := "INFO", LOG_FORMAT := "json", LOG_FILE := none, DATABASE_URL := none,
    DATABASE_POOL_SIZE := 10, DATABASE_MAX_OVERFLOW := 20, CACHE_TYPE := "memory",
    CACHE_REDIS_URL := none, CACHE_DEFAULT_TIMEOUT := 300, FEATURE_AUTO_SAVE := true,
    FEATURE_COLLABORATIVE_EDITING := false, FEATURE_ADVANCED_ANALYTICS := false }

/-- C7 witness: with default-like values plus a non-empty secret and a
two-element token list, the export redacts the secret to the fixed marker,
the token list to two indexed markers (length preserved), keeps the empty
Honeycomb key as-is and passes PROJECT_NAME and API_PORT through. -/
theorem to_dict_spec_witness :
    redactValue "SECRET_KEY" (PyVal.str "hunter2") = PyVal.str "***REDACTED***"
    ∧ storeGet (Config_to_dict c7attrs) "API_TOKENS" =
        some (PyVal.list ["***REDACTED0***", "***REDACTED1***"])
    ∧ storeGet (Config_to_dict c7attrs) "PROJECT_NAME" = some (PyVal.str "coding-agent")
    ∧ storeGet (Config_to_dict c7attrs) "API_PORT" = some (PyVal.int 8000)
    ∧ storeGet (Config_to_dict c7attrs) "HONEYCOMB_API_KEY" = some (PyVal.str "") := by
  have h := to_dict_spec
  have hc := h.2.2.2.2.2.2.2.1 c7attrs
  refine ⟨h.2.1 "SECRET_KEY" "hunter2" (by decide) (by decide), ?_, ?_, ?_, ?_⟩
  · rw [hc.2.2.2.1]
    decide
  · exact hc.1
  · exact hc.2.1
  · rw [hc.2.2.2.2.1]
    decide

/-! ## Claim C2 -/

theorem begList_append (pat l1 l2 : List Char) (h : begList l1 pat = true) :
    begList (l1 ++ l2) pat = true := by
  induction pat generalizing l1 with
  | nil => simp [begList]
  | cons d ds ih =>
    cases l1 with
    | nil => simp [begList] at h
    | cons c cs =>
      simp only [begList] at h ⊢
      by_cases hc : c = d
      · simp only [hc, if_true] at h ⊢
        exact ih cs h
      · simp [hc] at h

/-- The first component of mcp__process_stop on an existing record is the
truthiness of the stored pid. -/
theorem process_stop_fst (store : PStore) (mid now : String) (os : StopOS) (r : ProcRecord)
    (hl : load_process store.procs mid = some r) :
    (mcp__process_stop store mid now os).1 = pidTruthy r.pid := by
  by_cases hp : pidTruthy r.pid = true
  · rcases os with ⟨pg1, tr, aa, pg2, kr⟩
    cases pg1 <;> cases tr <;> cases aa <;> cases pg2 <;> cases kr <;>
      simp [mcp__process_stop, hl, hp]
  · simp only [Bool.not_eq_true] at hp
    simp [mcp__process_stop, hl, hp]

/-- The store after mcp__process_stop on an existing record. -/
theorem process_stop_snd (store : PStore) (mid now : String) (os : StopOS) (r : ProcRecord)
    (hl : load_process store.procs mid = some r) :
    (mcp__process_stop store mid now os).2.1 =
      if pidTruthy r.pid then
        PStore.mk
          (save_process store.procs
            (if stopSignalOk os then { r with status := "stopped", stopped_at := some now }
             else { r with status := "stopped" }))
          store.logs
      else store := by
  by_cases hp : pidTruthy r.pid = true
  · rcases os with ⟨pg1, tr, aa, pg2, kr⟩
    cases pg1 <;> cases tr <;> cases aa <;> cases pg2 <;> cases kr <;>
      simp [mcp__process_stop, hl, hp, stopSignalOk]
  · simp only [Bool.not_eq_true] at hp
    simp [mcp__process_stop, hl, hp]

/-- C2: for an existing record, process_restart stops the process and
issues a brand-new start with the same command/cwd/name/owner under a
fresh identifier distinct from the original; it returns false exactly when
the record is missing, the stop returns false, or the start result begins
with the error marker, and on success the new identifier maps to a fresh
running record with identical command, cwd, name and owner. -/
theorem process_restart_spec (store : PStore) (mid now newId ts : String)
    (sos : StopOS) (spawn : Except String Int) (r : ProcRecord)
    (hr : storeGet store.procs mid = some (some r))
    (hfresh : newId ≠ mid) (hne : strBegins newId "Error" = false) :
    ((mcp__process_restart store mid now newId ts sos spawn).1 = false ↔
      (load_process store.procs mid = none
        ∨ (mcp__process_stop store mid now sos).1 = false
        ∨ strBegins (mcp__process_start r.command r.cwd r.name r.owner newId ts spawn
            (mcp__process_stop store mid now sos).2.1).1 "Error" = true))
    ∧ newId ≠ mid
    ∧ ((mcp__process_restart store mid now newId ts sos spawn).1 = true →
        ∃ p, spawn = Except.ok p ∧
          storeGet (mcp__process_restart store mid now newId ts sos spawn).2.procs newId =
            some (some { id := newId, name := r.name, owner := r.owner, command := r.command,
                         cwd := r.cwd, pid := some p, status := "running",
                         started_at := some ts, stopped_at := none,
                         log_file := logPath newId })) := by
  have hload : load_process store.procs mid = some r := by simp [load_process, hr]
  have hfst := process_stop_fst store mid now sos r hload
  by_cases hp : pidTruthy r.pid = true
  · have hstop1 : (mcp__process_stop store mid now sos).1 = true := by rw [hfst, hp]
    cases spawn with
    | error e =>
      have hstart : (mcp__process_start r.command r.cwd r.name r.owner newId ts
          (Except.error e) (mcp__process_stop store mid now sos).2.1).1 =
            "Error starting process: " ++ e := by
        simp [mcp__process_start]
      have hbeg : strBegins ("Error starting process: " ++ e) "Error" = true := by
        have : ("Error starting process: " ++ e).data =
            ("Error starting process: ").data ++ e.data := String.data_append _ _
        unfold strBegins
        rw [this]
        exact begList_append _ _ _ (by decide)
      refine ⟨?_, hfresh, ?_⟩
      · simp only [mcp__process_restart, hload, hstop1, hstart]
        simp [hbeg, hstop1]
      · intro habs
        simp only [mcp__process_restart, hload, hstop1, hstart] at habs
        simp [hbeg] at habs
    | ok p =>
      have hstart : mcp__process_start r.command r.cwd r.name r.owner newId ts
          (Except.ok p) (mcp__process_stop store mid now sos).2.1 =
            (newId,
             { procs := save_process (mcp__process_stop store mid now sos).2.1.procs
                 { id := newId, name := r.name, owner := r.owner, command := r.command,
                   cwd := r.cwd, pid := some p, status := "running",
                   started_at := some ts, stopped_at := none, log_file := logPath newId },
               logs := storeSet (mcp__process_stop store mid now sos).2.1.logs newId "" }) := by
        simp [mcp__process_start]
      refine ⟨?_, hfresh, ?_⟩
      · simp only [mcp__process_restart, hload, hstop1, hstart]
        simp [hne, hstop1, hload]
      · intro _
        refine ⟨p, rfl, ?_⟩
        simp only [mcp__process_restart, hload, hstop1, if_neg (by simp : ¬ (true = false)),
          hstart]
        simp [save_process, storeGet_storeSet_self]
  · simp only [Bool.not_eq_true] at hp
    have hstop1 : (mcp__process_stop store mid now sos).1 = false := by rw [hfst, hp]
    have hres : (mcp__process_restart store mid now newId ts sos spawn).1 = false := by
      simp [mcp__process_restart, hload, hstop1]
    refine ⟨?_, hfresh, ?_⟩
    · simp [hres, hstop1]
    · intro habs
      rw [hres] at habs
      exact absurd habs (by simp)

def c2rec : ProcRecord :=
  { id := "a", name := "svc", owner := "agent", command := "python app.py", cwd := "/w",
    pid := some 55, status := "running", started_at := some "2024-07-03T10:30:00Z",
    stopped_at := none, log_file := logPath "a" }

def c2store : PStore := { procs := [("a", some c2rec)], logs := [("a", "old")] }

def c2os : StopOS :=
  { pg1 := some 55, term_raises := false, aliveAfter := false, pg2 := none, kill_raises := false }

/-- C2 witness: restarting a concrete running process with a fresh uuid
and a successful spawn succeeds and installs a new record with the
original command/cwd/name/owner under the new identifier. -/
theorem process_restart_spec_witness :
    (mcp__process_restart c2store "a" "T1" "b" "T2" c2os (Except.ok 77)).1 = true
    ∧ storeGet (mcp__process_restart c2store "a" "T1" "b" "T2" c2os (Except.ok 77)).2.procs "b" =
        some (some { id := "b", name := "svc", owner := "agent", command := "python app.py",
                     cwd := "/w", pid := some 77, status := "running", started_at := some "T2",
                     stopped_at := none, log_file := logPath "b" }) := by
  have h := process_restart_spec c2store "a" "T1" "b" "T2" c2os (Except.ok 77) c2rec
    (by decide) (by decide) (by decide)
  have h1 : (mcp__process_restart c2store "a" "T1" "b" "T2" c2os (Except.ok 77)).1 = true := by
    cases hb : (mcp__process_restart c2store "a" "T1" "b" "T2" c2os (Except.ok 77)).1
    · exact absurd (h.1.mp hb) (by decide)
    · rfl
  obtain ⟨p, hp, hg⟩ := h.2.2 h1
  injection hp with hpe
  subst hpe
  exact ⟨h1, hg⟩

/-! ## Claim C5 -/

theorem update_process_status_id (live : Int → Bool) (r : ProcRecord) :
    (update_process_status live r).id = r.id := by
  cases hp : r.pid <;> simp only [update_process_status, hp] <;>
    first
    | rfl
    | (split_ifs <;> rfl)

theorem nodup_keys_eq {α : Type} (l : List (String × α))
    (hnd : (l.map Prod.fst).Nodup) (a b : String × α)
    (ha : a ∈ l) (hb : b ∈ l) (hk : a.1 = b.1) : a = b := by
  induction l with
  | nil => simp at ha
  | cons p ps ih =>
    simp only [List.map_cons, List.nodup_cons] at hnd
    rcases List.mem_cons.mp ha with rfl | ha2
    · rcases List.mem_cons.mp hb with rfl | hb2
      · rfl
      · exact absurd (hk ▸ List.mem_map_of_mem Prod.fst hb2) hnd.1
    · rcases List.mem_cons.mp hb with rfl | hb2
      · exact absurd (hk ▸ List.mem_map_of_mem Prod.fst ha2) hnd.1
      · exact ih hnd.2 ha2 hb2

theorem foldl_eraseKey {α : Type} (ks : List ProcRecord) (l : List (String × α)) :
    ks.foldl (fun acc r => eraseKey acc r.id) l =
      l.filter (fun p => ks.all (fun r => if p.1 = r.id then false else true)) := by
  induction ks generalizing l with
  | nil => simp [List.filter_eq_self]
  | cons k ks ih =>
    simp only [List.foldl_cons]
    rw [ih (eraseKey l k.id)]
    unfold eraseKey
    rw [List.filter_filter]
    apply List.filter_congr
    intro p _
    simp [List.all_cons, Bool.and_comm]

theorem mem_procListBase (live : Int → Bool) (procs : List (String × Option ProcRecord))
    (r : ProcRecord) :
    r ∈ procs.filterMap (fun p => p.2.map (update_process_status live)) ↔
      ∃ k r0, (k, some r0) ∈ procs ∧ update_process_status live r0 = r := by
  rw [List.mem_filterMap]
  constructor
  · rintro ⟨⟨k, v⟩, hmem, hv⟩
    cases v with
    | none => simp at hv
    | some r0 =>
      refine ⟨k, r0, hmem, ?_⟩
      simpa using hv
  · rintro ⟨k, r0, hmem, hr⟩
    exact ⟨(k, some r0), hmem, by simpa using hr⟩

/-- C5: process_cleanup removes the metadata of exactly the (parseable)
processes whose live-probed effective status is `stopped`, leaves every
other metadata file (running/unknown/corrupt) and all log files untouched,
and returns the number removed together with a remaining count equal to
the number of listed processes minus the number removed. -/
theorem process_cleanup_spec (store : PStore) (live : Int → Bool)
    (hnd : (store.procs.map Prod.fst).Nodup)
    (hwf : ∀ k r, (k, some r) ∈ store.procs → r.id = k) :
    (mcp__process_cleanup store live).1.procs =
      store.procs.filter (fun p =>
        match p.2 with
        | none => true
        | some r0 =>
          if (update_process_status live r0).status = "stopped" then false else true)
    ∧ (mcp__process_cleanup store live).1.logs = store.logs
    ∧ (mcp__process_cleanup store live).2.1 =
        (list_processes live store.procs).countP
          (fun r => if r.status = "stopped" then true else false)
    ∧ (mcp__process_cleanup store live).2.2 =
        (list_processes live store.procs).length - (mcp__process_cleanup store live).2.1 := by
  refine ⟨?_, rfl, ?_, rfl⟩
  · show ((list_processes live store.procs).filter
        (fun r => if r.status = "stopped" then true else false)).foldl
          (fun acc r => eraseKey acc r.id) store.procs = _
    rw [foldl_eraseKey]
    apply List.filter_congr
    intro p hp
    rcases p with ⟨k, v⟩
    have hmemstop : ∀ r : ProcRecord,
        r ∈ (list_processes live store.procs).filter
          (fun r => if r.status = "stopped" then true else false) ↔
        (∃ k2 r0, (k2, some r0) ∈ store.procs ∧ update_process_status live r0 = r)
          ∧ r.status = "stopped" := by
      intro r
      rw [List.mem_filter, list_processes, mem_sortDesc, mem_procListBase]
      constructor
      · rintro ⟨hb, hs⟩
        refine ⟨hb, ?_⟩
        by_cases h : r.status = "stopped"
        · exact h
        · simp [h] at hs
      · rintro ⟨hb, hs⟩
        exact ⟨hb, by simp [hs]⟩
    cases v with
    | none =>
      show _ = true
      rw [List.all_eq_true]
      intro r hr
      obtain ⟨⟨k2, r0, hmem2, hupd⟩, hstat⟩ := (hmemstop r).mp hr
      have hne : ¬ (k = r.id) := by
        intro hk
        have hr0id : r.id = r0.id := by rw [← hupd, update_process_status_id]
        have hk2 : r0.id = k2 := hwf k2 r0 hmem2
        have heq : ((k, (none : Option ProcRecord)) : String × Option ProcRecord) =
            (k2, some r0) :=
          nodup_keys_eq store.procs hnd _ _ hp hmem2 (by simpa using hk.trans (hr0id.trans hk2))
        simp at heq
      simp [hne]
    | some r0 =>
      by_cases hstop : (update_process_status live r0).status = "stopped"
      · show _ = (if (update_process_status live r0).status = "stopped" then false else true)
        rw [if_pos hstop]
        have hid0 : r0.id = k := hwf k r0 hp
        have hmem : update_process_status live r0 ∈
            (list_processes live store.procs).filter
              (fun r => if r.status = "stopped" then true else false) :=
          (hmemstop _).mpr ⟨⟨k, r0, hp, rfl⟩, hstop⟩
        rcases hall : ((list_processes live store.procs).filter
            (fun r => if r.status = "stopped" then true else false)).all
            (fun r => if (k, some r0).1 = r.id then false else true) with _ | _
        · exact hall
        · exfalso
          have := List.all_eq_true.mp hall _ hmem
          rw [update_process_status_id, hid0] at this
          simp at this
      · show _ = (if (update_process_status live r0).status = "stopped" then false else true)
        rw [if_neg hstop]
        rw [List.all_eq_true]
        intro r hr
        obtain ⟨⟨k2, r2, hmem2, hupd⟩, hstat⟩ := (hmemstop r).mp hr
        have hne : ¬ (k = r.id) := by
          intro hk
          have hr2id : r.id = r2.id := by rw [← hupd, update_process_status_id]
          have hk2 : r2.id = k2 := hwf k2 r2 hmem2
          have heq : ((k, some r0) : String × Option ProcRecord) = (k2, some r2) :=
            nodup_keys_eq store.procs hnd _ _ hp hmem2
              (by simpa using hk.trans (hr2id.trans hk2))
          have hr02 : r0 = r2 := by
            injection heq with h1 h2
            injection h2
          rw [← hr02] at hupd
          rw [hupd] at hstop
          exact hstop hstat
        simp [hne]
  · show ((list_processes live store.procs).filter
        (fun r => if r.status = "stopped" then true else false)).length = _
    exact (List.countP_eq_length_filter _ _).symm

def c5recRun : ProcRecord :=
  { id := "run1", name := "a", owner := "o", command := "c1", cwd := "/", pid := some 11,
    status := "running", started_at := some "2024-07-01T00:00:00Z", stopped_at := none,
    log_file := logPath "run1" }

def c5recDead : ProcRecord :=
  { id := "dead1", name := "b", owner := "o", command := "c2", cwd := "/", pid := some 22,
    status := "running", started_at := some "2024-07-02T00:00:00Z", stopped_at := none,
    log_file := logPath "dead1" }

def c5recNoPid : ProcRecord :=
  { id := "nop1", name := "d", owner := "o", command := "c3", cwd := "/", pid := none,
    status := "running", started_at := some "2024-07-03T00:00:00Z", stopped_at := none,
    log_file := logPath "nop1" }

def c5store : PStore :=
  { procs := [("run1", some c5recRun), ("dead1", some c5recDead),
              ("bad", none), ("nop1", some c5recNoPid)],
    logs := [("run1", "r"), ("dead1", "d"), ("nop1", "n")] }

/-- The liveness oracle of the C5 witness: only pid 11 is alive. -/
def c5live : Int → Bool := fun p => if p = 11 then true else false

/-- C5 witness: of a running, a dead, a pid-less and a corrupt record,
cleanup removes exactly the dead one, keeps all logs, and reports 1
removed with 2 remaining (3 listed minus 1). -/
theorem process_cleanup_spec_witness :
    (mcp__process_cleanup c5store c5live).1.procs =
      [("run1", some c5recRun), ("bad", none), ("nop1", some c5recNoPid)]
    ∧ (mcp__process_cleanup c5store c5live).1.logs = c5store.logs
    ∧ (mcp__process_cleanup c5store c5live).2.1 = 1
    ∧ (mcp__process_cleanup c5store c5live).2.2 = 2 := by
  have h := process_cleanup_spec c5store c5live (by decide)
    (by
      intro k r hm
      simp only [c5store] at hm
      simp at hm
      rcases hm with ⟨rfl, rfl⟩ | ⟨rfl, rfl⟩ | ⟨rfl, rfl⟩ <;> rfl)
  refine ⟨?_, h.2.1, ?_, ?_⟩
  · rw [h.1]
    decide
  · rw [h.2.2.1]
    decide
  · rw [h.2.2.2, h.2.2.1]
    decide

/-! ## Claim C4 (corrected) -/

theorem filterMap_filter_isSome {α β γ : Type} (l : List (γ × Option α))
    (g : Option α → Option β) (hg : g none = none) :
    (l.filter (fun p => p.2.isSome)).filterMap (fun p => g p.2) =
      l.filterMap (fun p => g p.2) := by
  induction l with
  | nil => rfl
  | cons p ps ih =>
    cases hv : p.2 with
    | none => simp [List.filter_cons, List.filterMap_cons, hv, hg, ih]
    | some a => simp [List.filter_cons, List.filterMap_cons, hv, ih]

theorem summarizeInbox_sorted_mem (agent : String) (ms : List Msg) (l : List InboxItem)
    (hs : List.Sorted (descBy msgKey) ms) (h : summarizeInbox agent ms = Except.ok l) :
    List.Sorted (descBy (fun s : InboxItem => s.timestamp)) l
    ∧ ∀ s ∈ l, ∃ m ∈ ms, m.timestamp = some s.timestamp := by
  induction ms generalizing l with
  | nil =>
    simp only [summarizeInbox, Except.ok.injEq] at h
    subst h
    simp
  | cons m ms ih =>
    simp only [summarizeInbox] at h
    by_cases hmem : agent ∈ m.to_
    · rw [if_pos hmem] at h
      cases hts : m.timestamp with
      | none => rw [hts] at h; simp at h
      | some t =>
        rw [hts] at h
        cases hrec : summarizeInbox agent ms with
        | error e => rw [hrec] at h; simp at h
        | ok l2 =>
          rw [hrec] at h
          simp only [Except.ok.injEq] at h
          subst h
          obtain ⟨ih1, ih2⟩ := ih l2 hs.of_cons hrec
          constructor
          · refine List.sorted_cons.mpr ⟨?_, ih1⟩
            intro s2 hs2
            obtain ⟨m2, hm2, hts2⟩ := ih2 s2 hs2
            have hd := (List.sorted_cons.mp hs).1 m2 hm2
            show strLt t s2.timestamp = false
            have hkey : msgKey m = t := by simp [msgKey, hts]
            have hkey2 : msgKey m2 = s2.timestamp := by simp [msgKey, hts2]
            rw [← hkey, ← hkey2]
            exact hd
          · intro s2 hs2
            rcases List.mem_cons.mp hs2 with rfl | hs2
            · exact ⟨m, List.mem_cons_self m ms, by simp [hts]⟩
            · obtain ⟨m2, hm2, hts2⟩ := ih2 s2 hs2
              exact ⟨m2, List.mem_cons_of_mem m hm2, hts2⟩
    · rw [if_neg hmem] at h
      obtain ⟨ih1, ih2⟩ := ih l hs.of_cons h
      refine ⟨ih1, fun s hs2 => ?_⟩
      obtain ⟨m2, hm2, hts2⟩ := ih2 s hs2
      exact ⟨m2, List.mem_cons_of_mem m hm2, hts2⟩

theorem summarizeAll_sorted_mem (ms : List Msg) (l : List MailSummary)
    (hs : List.Sorted (descBy msgKey) ms) (h : summarizeAll ms = Except.ok l) :
    List.Sorted (descBy (fun s : MailSummary => s.timestamp)) l
    ∧ ∀ s ∈ l, ∃ m ∈ ms, m.timestamp = some s.timestamp := by
  induction ms generalizing l with
  | nil =>
    simp only [summarizeAll, Except.ok.injEq] at h
    subst h
    simp
  | cons m ms ih =>
    simp only [summarizeAll] at h
    cases hts : m.timestamp with
    | none => rw [hts] at h; simp at h
    | some t =>
      rw [hts] at h
      cases hrec : summarizeAll ms with
      | error e => rw [hrec] at h; simp at h
      | ok l2 =>
        rw [hrec] at h
        simp only [Except.ok.injEq] at h
        subst h
        obtain ⟨ih1, ih2⟩ := ih l2 hs.of_cons hrec
        constructor
        · refine List.sorted_cons.mpr ⟨?_, ih1⟩
          intro s2 hs2
          obtain ⟨m2, hm2, hts2⟩ := ih2 s2 hs2
          have hd := (List.sorted_cons.mp hs).1 m2 hm2
          show strLt t s2.timestamp = false
          have hkey : msgKey m = t := by simp [msgKey, hts]
          have hkey2 : msgKey m2 = s2.timestamp := by simp [msgKey, hts2]
          rw [← hkey, ← hkey2]
          exact hd
        · intro s2 hs2
          rcases List.mem_cons.mp hs2 with rfl | hs2
          · exact ⟨m, List.mem_cons_self m ms, by simp [hts]⟩
          · obtain ⟨m2, hm2, hts2⟩ := ih2 s2 hs2
            exact ⟨m2, List.mem_cons_of_mem m hm2, hts2⟩

theorem summarizeProcs_sorted_mem (rs : List ProcRecord) (l : List ProcSummary)
    (hs : List.Sorted (descBy procKey) rs) (h : summarizeProcs rs = Except.ok l) :
    List.Sorted (descBy (fun s : ProcSummary => s.started_at)) l
    ∧ ∀ s ∈ l, ∃ r ∈ rs, r.started_at = some s.started_at := by
  induction rs generalizing l with
  | nil =>
    simp only [summarizeProcs, Except.ok.injEq] at h
    subst h
    simp
  | cons r rs ih =>
    simp only [summarizeProcs] at h
    cases hts : r.started_at with
    | none => rw [hts] at h; simp at h
    | some t =>
      rw [hts] at h
      cases hrec : summarizeProcs rs with
      | error e => rw [hrec] at h; simp at h
      | ok l2 =>
        rw [hrec] at h
        simp only [Except.ok.injEq] at h
        subst h
        obtain ⟨ih1, ih2⟩ := ih l2 hs.of_cons hrec
        constructor
        · refine List.sorted_cons.mpr ⟨?_, ih1⟩
          intro s2 hs2
          obtain ⟨r2, hr2, hts2⟩ := ih2 s2 hs2
          have hd := (List.sorted_cons.mp hs).1 r2 hr2
          show strLt t s2.started_at = false
          have hkey : procKey r = t := by simp [procKey, hts]
          have hkey2 : procKey r2 = s2.started_at := by simp [procKey, hts2]
          rw [← hkey, ← hkey2]
          exact hd
        · intro s2 hs2
          rcases List.mem_cons.mp hs2 with rfl | hs2
          · exact ⟨r, List.mem_cons_self r rs, by simp [hts]⟩
          · obtain ⟨r2, hr2, hts2⟩ := ih2 s2 hs2
            exact ⟨r2, List.mem_cons_of_mem r hr2, hts2⟩

/-- C4 (amended): every listing sorts by timestamp string descending, the
internal listing helpers treating a missing timestamp as the empty string
(oldest), and a file that fails to parse or read is silently excluded
without raising; however, the tool-level listing operations build their
summaries by direct subscription, so they return (sorted) entries only
when every included record carries its timestamp and raise a KeyError
otherwise. -/
theorem listings_sorted_spec (store : MailStore) (pstore : PStore) (agent : String)
    (owner : Option String) (live : Int → Bool) :
    List.Sorted (descBy msgKey) (list_messages store)
    ∧ List.Sorted (descBy procKey) (list_processes live pstore.procs)
    ∧ list_messages store = list_messages (store.filter (fun p => p.2.isSome))
    ∧ list_processes live pstore.procs =
        list_processes live (pstore.procs.filter (fun p => p.2.isSome))
    ∧ (∀ l, mcp__mail_inbox agent store = Except.ok l →
        List.Sorted (descBy (fun s : InboxItem => s.timestamp)) l)
    ∧ (∀ l, mcp__mail_list_all store = Except.ok l →
        List.Sorted (descBy (fun s : MailSummary => s.timestamp)) l)
    ∧ (∀ l, mcp__process_list owner live pstore = Except.ok l →
        List.Sorted (descBy (fun s : ProcSummary => s.started_at)) l) := by
  refine ⟨sorted_sortDesc _ _, sorted_sortDesc _ _, ?_, ?_, ?_, ?_, ?_⟩
  · unfold list_messages
    rw [filterMap_filter_isSome store (fun v => v) rfl]
  · unfold list_processes
    rw [filterMap_filter_isSome pstore.procs (fun v => v.map (update_process_status live)) rfl]
  · intro l h
    exact (summarizeInbox_sorted_mem agent _ l (sorted_sortDesc _ _) h).1
  · intro l h
    exact (summarizeAll_sorted_mem _ l (sorted_sortDesc _ _) h).1
  · intro l h
    rw [show mcp__process_list owner live pstore =
        summarizeProcs (if optStrTruthy owner = true
          then (list_processes live pstore.procs).filter
            (fun p => decide (p.owner = owner.getD ""))
          else list_processes live pstore.procs) from rfl] at h
    by_cases ho : optStrTruthy owner = true
    · rw [if_pos ho] at h
      exact (summarizeProcs_sorted_mem _ l
        (List.Pairwise.filter _ (sorted_sortDesc _ _)) h).1
    · rw [if_neg ho] at h
      exact (summarizeProcs_sorted_mem _ l (sorted_sortDesc _ _) h).1

def c4msgNoTs : Msg :=
  { id := "nt", from_ := "alice", to_ := ["bob"], subject := "s", body := "b",
    timestamp := none, read := false }

def c4badstore : MailStore := [("nt", some c4msgNoTs)]

def c4badrec : ProcRecord :=
  { id := "p", name := "n", owner := "o", command := "c", cwd := "/", pid := some 9,
    status := "running", started_at := none, stopped_at := none, log_file := logPath "p" }

def c4badpstore : PStore := { procs := [("p", some c4badrec)], logs := [] }

/-- The liveness oracle of the C4 counterexample (nothing alive). -/
def c4live : Int → Bool := fun _ => false

/-- C4 counterexample: a message file and a process file that parse but
lack their timestamp field make mail_list_all, mail_inbox and
process_list raise a KeyError instead of returning the entry sorted as
oldest — refuting the claim that every listing operation returns such
entries sorted with the empty-string key. -/
theorem listings_missing_timestamp_raise :
    mcp__mail_list_all c4badstore = Except.error ()
    ∧ mcp__mail_inbox "bob" c4badstore = Except.error ()
    ∧ mcp__process_list none c4live c4badpstore = Except.error ()
    ∧ storeGet c4badstore "nt" = some (some c4msgNoTs)
    ∧ storeGet c4badpstore.procs "p" = some (some c4badrec) := by decide

def c4msgA : Msg :=
  { id := "a", from_ := "alice", to_ := ["bob"], subject := "s1", body := "b1",
    timestamp := some "2024-07-01T00:00:00Z", read := false }

def c4msgB : Msg :=
  { id := "b", from_ := "carol", to_ := ["bob"], subject := "s2", body := "b2",
    timestamp := some "2024-07-02T00:00:00Z", read := true }

def c4wstore : MailStore := [("a", some c4msgA), ("bad", none), ("b", some c4msgB)]

/-- C4 witness: on a store with two well-formed messages and a corrupt
file, the inbox listing the theorem certifies is sorted newest-first with
the corrupt file silently excluded. -/
theorem listings_sorted_spec_witness :
    List.Sorted (descBy (fun s : InboxItem => s.timestamp))
      [{ id := "b", from_ := "carol", subject := "s2",
         timestamp := "2024-07-02T00:00:00Z", read := true },
       { id := "a", from_ := "alice", subject := "s1",
         timestamp := "2024-07-01T00:00:00Z", read := false }]
    ∧ list_messages c4wstore = list_messages (c4wstore.filter (fun p => p.2.isSome)) := by
  have h := listings_sorted_spec c4wstore { procs := [], logs := [] } "bob" none c4live
  exact ⟨h.2.2.2.2.1 _ (by decide), h.2.2.1⟩

/-! ## Claim C8 (corrected) -/

theorem mem_mailBase (store : MailStore) (m : Msg) :
    m ∈ store.filterMap (fun p => p.2) ↔ ∃ k, (k, some m) ∈ store := by
  rw [List.mem_filterMap]
  constructor
  · rintro ⟨⟨k, v⟩, hmem, hv⟩
    cases v with
    | none => simp at hv
    | some m2 =>
      simp only [Option.some_inj] at hv
      exact ⟨k, hv ▸ hmem⟩
  · rintro ⟨k, hmem⟩
    exact ⟨(k, some m), hmem, rfl⟩

/-- The inbox summary record mcp__mail_inbox builds for one message. -/
def inboxSummaryOf (m : Msg) : InboxItem :=
  { id := m.id, from_ := m.from_, subject := m.subject,
    timestamp := m.timestamp.getD "", read := m.read }

/-- When every message addressed to the agent carries a timestamp, the
inbox summary loop succeeds and is the summary map over the addressed
messages in order. -/
theorem summarizeInbox_all_ts (agent : String) (ms : List Msg)
    (h : ∀ m ∈ ms, agent ∈ m.to_ → m.timestamp ≠ none) :
    summarizeInbox agent ms =
      Except.ok ((ms.filter (fun m => decide (agent ∈ m.to_))).map inboxSummaryOf) := by
  induction ms with
  | nil => rfl
  | cons m ms ih =>
    simp only [summarizeInbox]
    by_cases hmem : agent ∈ m.to_
    · rw [if_pos hmem]
      cases hts : m.timestamp with
      | none => exact absurd hts (h m (List.mem_cons_self m ms) hmem)
      | some t =>
        rw [ih (fun m2 hm2 => h m2 (List.mem_cons_of_mem m hm2))]
        simp [List.filter_cons, hmem, hts, inboxSummaryOf]
    · rw [if_neg hmem]
      rw [ih (fun m2 hm2 => h m2 (List.mem_cons_of_mem m hm2))]
      simp [List.filter_cons, hmem]

/-- C8 (amended): after sending a message under a fresh identifier into a
store whose messages addressed to recipient r all carry timestamps, the
inbox of every r among the recipients succeeds and contains exactly one
entry with the new identifier, bearing the sent from/subject/timestamp
and read = false. (Without the timestamp proviso the inbox call raises
instead of returning, see the counterexample.) -/
theorem send_inbox_spec (store : MailStore) (from_agent : String) (to_agents : List String)
    (subject body mid ts r : String)
    (hr : r ∈ to_agents)
    (hfresh1 : storeGet store mid = none)
    (hfresh2 : ∀ k m, (k, some m) ∈ store → ¬ m.id = mid)
    (hts : ∀ k m, (k, some m) ∈ store → r ∈ m.to_ → m.timestamp ≠ none) :
    ∃ l, mcp__mail_inbox r (mcp__mail_send from_agent to_agents subject body mid ts store).2
        = Except.ok l
      ∧ l.filter (fun s => decide (s.id = mid)) =
          [{ id := mid, from_ := from_agent, subject := subject, timestamp := ts,
             read := false }] := by
  set msg : Msg :=
    { id := mid, from_ := from_agent, to_ := to_agents, subject := subject,
      body := body, timestamp := some ts, read := false } with hmsg
  have hstore2 : (mcp__mail_send from_agent to_agents subject body mid ts store).2 =
      store ++ [(mid, some msg)] := by
    show storeSet store mid (some msg) = _
    exact storeSet_absent store mid (some msg) hfresh1
  have hbase : (store ++ [(mid, some msg)]).filterMap (fun p => p.2) =
      store.filterMap (fun p => p.2) ++ [msg] := by
    rw [List.filterMap_append]
    rfl
  have hmem_ms : ∀ m, m ∈ list_messages (store ++ [(mid, some msg)]) ↔
      m ∈ store.filterMap (fun p => p.2) ++ [msg] := by
    intro m
    rw [list_messages, mem_sortDesc, hbase]
  have hts2 : ∀ m ∈ list_messages (store ++ [(mid, some msg)]), r ∈ m.to_ →
      m.timestamp ≠ none := by
    intro m hm hrm
    rcases List.mem_append.mp ((hmem_ms m).mp hm) with hb | hone
    · obtain ⟨k, hk⟩ := (mem_mailBase store m).mp hb
      exact hts k m hk hrm
    · have hm2 : m = msg := by simpa using hone
      rw [hm2, hmsg]
      simp
  have hinb : mcp__mail_inbox r (mcp__mail_send from_agent to_agents subject body mid ts store).2
      = Except.ok (((list_messages (store ++ [(mid, some msg)])).filter
          (fun m => decide (r ∈ m.to_))).map inboxSummaryOf) := by
    rw [show mcp__mail_inbox r (mcp__mail_send from_agent to_agents subject body mid ts store).2
        = summarizeInbox r
            (list_messages (mcp__mail_send from_agent to_agents subject body mid ts store).2)
      from rfl, hstore2]
    exact summarizeInbox_all_ts r _ hts2
  refine ⟨_, hinb, ?_⟩
  have hp0 : List.Perm (list_messages (store ++ [(mid, some msg)]))
      (store.filterMap (fun p => p.2) ++ [msg]) := by
    show List.Perm
      (sortDesc msgKey ((store ++ [(mid, some msg)]).filterMap (fun p => p.2)))
      (store.filterMap (fun p => p.2) ++ [msg])
    rw [hbase]
    exact perm_sortDesc _ _
  have hfr : (store.filterMap (fun p => p.2) ++ [msg]).filter
      (fun a => decide (r ∈ a.to_) && decide (a.id = mid)) = [msg] := by
    rw [List.filter_append]
    have h1 : (store.filterMap (fun p => p.2)).filter
        (fun a => decide (r ∈ a.to_) && decide (a.id = mid)) = [] := by
      rw [List.filter_eq_nil_iff]
      intro m hm
      obtain ⟨k, hk⟩ := (mem_mailBase store m).mp hm
      simp [hfresh2 k m hk]
    rw [h1]
    simp [List.filter_cons, hr, hmsg]
  have h3 : (list_messages (store ++ [(mid, some msg)])).filter
      (fun a => decide (r ∈ a.to_) && decide (a.id = mid)) = [msg] :=
    List.perm_singleton.mp (hfr ▸ (List.Perm.filter _ hp0))
  calc List.filter (fun s => decide (s.id = mid))
        (List.map inboxSummaryOf
          (List.filter (fun m => decide (r ∈ m.to_))
            (list_messages (store ++ [(mid, some msg)]))))
      = List.map inboxSummaryOf
          (List.filter ((fun s => decide (s.id = mid)) ∘ inboxSummaryOf)
            (List.filter (fun m => decide (r ∈ m.to_))
              (list_messages (store ++ [(mid, some msg)])))) := by
        rw [List.filter_map]
    _ = List.map inboxSummaryOf
          (List.filter (fun a => decide (r ∈ a.to_) && decide (a.id = mid))
            (list_messages (store ++ [(mid, some msg)]))) := by
        rw [List.filter_filter]
        apply congrArg
        apply List.filter_congr
        intro a _
        simp [inboxSummaryOf, Function.comp, Bool.and_comm]
    _ = List.map inboxSummaryOf [msg] := by rw [h3]
    _ = [{ id := mid, from_ := from_agent, subject := subject, timestamp := ts,
           read := false }] := by
        simp [hmsg, inboxSummaryOf]

def c8msgOld : Msg :=
  { id := "old", from_ := "carol", to_ := ["bob"], subject := "t", body := "b0",
    timestamp := some "2024-07-01T00:00:00Z", read := true }

def c8store : MailStore := [("old", some c8msgOld)]

/-- C8 witness: sending to bob and dan over a store with one well-formed
message yields an inbox for bob with exactly one entry under the fresh
identifier, carrying the sent fields and read false. -/
theorem send_inbox_spec_witness :
    ∃ l, mcp__mail_inbox "bob"
        (mcp__mail_send "alice" ["bob", "dan"] "s" "b" "fresh" "2024-07-09T00:00:00Z" c8store).2
        = Except.ok l
      ∧ l.filter (fun s => decide (s.id = "fresh")) =
          [{ id := "fresh", from_ := "alice", subject := "s",
             timestamp := "2024-07-09T00:00:00Z", read := false }] :=
  send_inbox_spec c8store "alice" ["bob", "dan"] "s" "b" "fresh" "2024-07-09T00:00:00Z" "bob"
    (by decide) (by decide)
    (by
      intro k m hm
      simp [c8store] at hm
      rcases hm with ⟨rfl, rfl⟩
      decide)
    (by
      intro k m hm hrm
      simp [c8store] at hm
      rcases hm with ⟨rfl, rfl⟩
      decide)

def c8msgNoTs : Msg :=
  { id := "nt", from_ := "erin", to_ := ["bob"], subject := "x", body := "y",
    timestamp := none, read := false }

def c8badstore : MailStore := [("nt", some c8msgNoTs)]

/-- C8 counterexample: the store holds no message with the fresh
identifier, yet after sending, the recipient inbox raises (a stored
message addressed to bob lacks its timestamp) instead of containing
exactly one matching entry — refuting the claim as stated. -/
theorem send_inbox_missing_timestamp_raises :
    storeGet c8badstore "fresh" = none
    ∧ mcp__mail_inbox "bob"
        (mcp__mail_send "alice" ["bob"] "s" "b" "fresh" "2024-07-09T00:00:00Z" c8badstore).2
        = Except.error ()
    ∧ ¬ ∃ l, mcp__mail_inbox "bob"
          (mcp__mail_send "alice" ["bob"] "s" "b" "fresh" "2024-07-09T00:00:00Z" c8badstore).2
          = Except.ok l
        ∧ l.filter (fun s => decide (s.id = "fresh")) =
            [{ id := "fresh", from_ := "alice", subject := "s",
               timestamp := "2024-07-09T00:00:00Z", read := false }] := by
  refine ⟨by decide, by decide, ?_⟩
  rintro ⟨l, hl, _⟩
  rw [(by decide : mcp__mail_inbox "bob"
      (mcp__mail_send "alice" ["bob"] "s" "b" "fresh" "2024-07-09T00:00:00Z" c8badstore).2
      = Except.error ())] at hl
  simp at hl
